import Mathlib

/-!
Verification of the IMMM-SFA/modelcard extraction-and-validation pipeline.

Shallow embedding of the repository sources:
  * src/agents/card.py      (the ModelCard pydantic schema)
  * src/agents/validate.py  (synthesize_and_validate, type coercion and vocabulary checks)
  * src/agents/graph.py     (GraphState, decide_next_step)
  * src/agents/extract.py   (information_extraction, prepopulation and the RAG loop)
  * src/agents/web_agents.py (fetch_publications, DOI handling)

Python values that flow through the pipeline are JSON-shaped (the model output
is parsed by JsonOutputParser), so they are modelled by the inductive JValue.
Python dicts are modelled as insertion-ordered association lists with Python
assignment/delete semantics.  External collaborators (the LLM, the retriever,
the git repository, the search tool) are modelled as oracle parameters, since
the code treats them as opaque I/O boundaries.
-/

set_option autoImplicit false
set_option maxRecDepth 100000

/-- A JSON-shaped Python value: the domain of extracted field values. -/
inductive JValue where
  | jnull
  | jbool (b : Bool)
  | jnum (n : Int)
  | jstr (s : String)
  | jlist (xs : List JValue)
  | jdict (kvs : List (String × JValue))

/-- Python d.get(k): value of the first entry with key k, if any. -/
def aGet {a : Type} : List (String × a) → String → Option a
  | [], _ => none
  | (k, v) :: rest, key => if k = key then some v else aGet rest key

/-- Python d[k] = v: update the existing entry in place, else append at the end. -/
def aSet {a : Type} : List (String × a) → String → a → List (String × a)
  | [], key, v => [(key, v)]
  | (k, w) :: rest, key, v => if k = key then (k, v) :: rest else (k, w) :: aSet rest key v

/-- Python del d[k]: remove the entry with key k. -/
def aDel {a : Type} : List (String × a) → String → List (String × a)
  | [], _ => []
  | (k, w) :: rest, key => if k = key then rest else (k, w) :: aDel rest key

/-- Python k in d. -/
def aMem {a : Type} (d : List (String × a)) (key : String) : Bool :=
  (aGet d key).isSome

/-- Extracted-info / model-card dictionary: field name to JSON value. -/
abbrev JDict : Type := List (String × JValue)

/-- Validation-issue map: issue key to human-readable message. -/
abbrev Issues : Type := List (String × String)

/-- Python str.rstrip(chars): drop trailing characters belonging to chars. -/
def rstripChars (s : String) (chars : String) : String :=
  String.mk ((s.data.reverse.dropWhile (fun c => chars.data.contains c)).reverse)

/-- Occurrence of the pattern inside the character list. -/
def listContainsPat (pat : List Char) : List Char → Bool
  | [] => pat.isEmpty
  | c :: cs => pat.isPrefixOf (c :: cs) || listContainsPat pat cs

/-- Python substring containment: pat in s, for a non-empty pattern pat. -/
def containsSub (s : String) (pat : String) : Bool :=
  listContainsPat pat.data s.data

/-- Python str.startswith(pre). -/
def startsWithStr (s : String) (pre : String) : Bool :=
  pre.data.isPrefixOf s.data

/-- Python str.split(sep) for a one-character separator, on character lists. -/
def splitOnCharList (c : Char) : List Char → List (List Char)
  | [] => [[]]
  | x :: xs =>
    let r := splitOnCharList c xs
    if x = c then [] :: r
    else
      match r with
      | [] => [[x]]
      | h :: t => (x :: h) :: t

/-- Python str.split(sep) for a one-character separator. -/
def pySplitChar (s : String) (c : Char) : List String :=
  (splitOnCharList c s.data).map String.mk

/-- Python str.strip(): remove leading and trailing whitespace. -/
def pyStrip (s : String) : String :=
  String.mk (((s.data.dropWhile Char.isWhitespace).reverse.dropWhile Char.isWhitespace).reverse)

/-- Python str.lower() (ASCII data in this pipeline). -/
def pyLower (s : String) : String :=
  String.mk (s.data.map Char.toLower)

/-- Python repr() restricted to JSON-shaped values (list/dict element rendering). -/
def pyRepr : JValue → String
  | .jnull => "None"
  | .jbool true => "True"
  | .jbool false => "False"
  | .jnum n => toString n
  | .jstr s => "\x27" ++ s ++ "\x27"
  | .jlist xs => "[" ++ String.intercalate (", ") (xs.attach.map (fun x => pyRepr x.1)) ++ "]"
  | .jdict kvs =>
      "\x7b" ++ String.intercalate (", ")
        (kvs.attach.map (fun kv => "\x27" ++ kv.1.1 ++ "\x27: " ++ pyRepr kv.1.2)) ++ "\x7d"
decreasing_by
  · have h := List.sizeOf_lt_of_mem x.2
    simp_wf
    omega
  · obtain ⟨⟨k, v⟩, hm⟩ := kv
    have h := List.sizeOf_lt_of_mem hm
    simp_wf
    simp only [Prod.mk.sizeOf_spec] at h
    omega

/-- Python str() restricted to JSON-shaped values. -/
def pyStr : JValue → String
  | .jstr s => s
  | v => pyRepr v

/-- Python type(x) rendering for JSON-shaped values. -/
def pyType : JValue → String
  | .jnull => "<class \x27NoneType\x27>"
  | .jbool _ => "<class \x27bool\x27>"
  | .jnum _ => "<class \x27int\x27>"
  | .jstr _ => "<class \x27str\x27>"
  | .jlist _ => "<class \x27list\x27>"
  | .jdict _ => "<class \x27dict\x27>"

/-- Python truthiness of a JSON-shaped value. -/
def pyTruthy : JValue → Bool
  | .jnull => false
  | .jbool b => b
  | .jnum n => n != 0
  | .jstr s => s != ""
  | .jlist xs => !xs.isEmpty
  | .jdict kvs => !kvs.isEmpty

/-- Python x is None for the result of dict.get: key absent or stored None. -/
def optNone : Option JValue → Bool
  | none => true
  | some .jnull => true
  | some _ => false

/-- Python equality of a JSON-shaped value against a str (only equal strings match). -/
def pyEqStr : JValue → String → Bool
  | .jstr s, t => s == t
  | _, _ => false

/-- Python v in allowed for a list of strings allowed (element-wise ==). -/
def pyInStrList (v : JValue) (allowed : List String) : Bool :=
  allowed.any (fun t => pyEqStr v t)

/-!
Schema registry: src/agents/card.py.

Every ModelCard field is annotated either str or Union[List[str], str], and
every field declares default "N/A", so pydantic reports is_required() = False
for all of them.
-/

/-- The two type annotations occurring in the ModelCard schema (card.py lines 36-57). -/
inductive FieldAnn where
  | annStr
  | annUnionListStr
deriving Repr, DecidableEq

/-- Python str(field_info.annotation) for each annotation. -/
def annStrRepr : FieldAnn → String
  | .annStr => "<class \x27str\x27>"
  | .annUnionListStr => "typing.Union[typing.List[str], str]"

/-- Python getattr(annotation, "__origin__", None) is list: the origin of str is
absent and the origin of a Union is typing.Union, so this is False for both. -/
def originIsList : FieldAnn → Bool
  | _ => false

/-- validate.py lines 69-71: origin is list or str(annotation).startswith("List["). -/
def isListField (ann : FieldAnn) : Bool :=
  originIsList ann || startsWithStr (annStrRepr ann) ("List[")

/-- validate.py line 141 / extract-independent shape test: "List[" in str(annotation). -/
def annContainsList (ann : FieldAnn) : Bool :=
  originIsList ann || containsSub (annStrRepr ann) ("List[")

/-- Pydantic v2 field_info.is_required(): False because every card.py field has a default. -/
def isRequiredField : FieldAnn → Bool
  | _ => false

/-- The ordered ModelCard.model_fields of card.py (name, annotation). -/
def modelFields : List (String × FieldAnn) :=
  [("capability_name", .annStr),
   ("brief_description", .annStr),
   ("systems_covered", .annStr),
   ("contact_name", .annStr),
   ("contact_email", .annStr),
   ("key_contributors", .annUnionListStr),
   ("doi", .annStr),
   ("computational_requirements", .annUnionListStr),
   ("sponsoring_projects", .annUnionListStr),
   ("figure", .annStr),
   ("figure_caption", .annStr),
   ("spatial_resolution", .annUnionListStr),
   ("geographic_scope", .annUnionListStr),
   ("temporal_resolution", .annUnionListStr),
   ("temporal_range", .annUnionListStr),
   ("input_variables", .annUnionListStr),
   ("output_variables", .annUnionListStr),
   ("interdependencies", .annUnionListStr),
   ("key_publications", .annUnionListStr),
   ("category", .annUnionListStr),
   ("license", .annStr),
   ("current_version", .annStr)]

/-- Field names of the schema, in declaration order. -/
def fieldNames : List String := modelFields.map Prod.fst

/-!
Pipeline state: src/agents/graph.py (GraphState TypedDict).

Document lists only matter through emptiness and count here, so documents are
modelled by their text chunks.
-/

/-- GraphState of graph.py lines 7-27. -/
structure GraphState where
  input_urls : List (String × String)
  github_docs : List String
  docs_docs : List String
  extracted_info : JDict
  model_card : Option JDict
  error_messages : List String
  validation_issues : Issues

/-- The two routing targets of the conditional edge out of synthesize_validate:
the error_handler node and the END terminal of the langgraph graph. -/
inductive Route where
  | error_handler
  | endRoute
deriving DecidableEq

/-- Python truthiness of state.get("model_card"): None and the empty dict are falsy. -/
def cardFalsy : Option JDict → Bool
  | none => true
  | some d => d.isEmpty

/-- decide_next_step of graph.py lines 30-56. -/
def decide_next_step (state : GraphState) : Route :=
  let errors := state.error_messages
  let issues := state.validation_issues
  if errors.any (fun msg => containsSub (pyLower msg) ("fetch failed")) then
    .error_handler
  else if errors.any (fun msg => containsSub (pyLower msg) ("vector store initialization failed")) then
    .error_handler
  else if !issues.isEmpty then
    .error_handler
  else if cardFalsy state.model_card then
    .error_handler
  else
    .endRoute

/-!
Coercion and validation: src/agents/validate.py, synthesize_and_validate.
-/

/-- validate.py lines 105 and 111: the closed vocabularies. -/
def allowedCompute : List String := ["HPC", "Laptop", "None specified"]

/-- Allowed category vocabulary (validate.py line 111). -/
def allowedCategories : List String :=
  ["Atmosphere", "Physical Hydrology", "Water Management", "Wildfire", "Energy",
   "Multisectoral", "Land Use Land Cover", "Socioeconomics"]

/-- Python [item.strip() for item in raw.split(",") if item.strip()] (validate.py line 77). -/
def splitCommaTrim (s : String) : List JValue :=
  ((((pySplitChar s (','))).map pyStrip).filter (fun t => t != "")).map .jstr

/-- Is the dict.get result a Python list value. -/
def optIsList : Option JValue → Bool
  | some (.jlist _) => true
  | _ => false

/-- One iteration of the per-field coercion loop (validate.py lines 59-102). -/
def coerceField (acc : JDict × Issues) (field : String × FieldAnn) : JDict × Issues :=
  let d := acc.1
  let issues := acc.2
  let name := field.1
  let ann := field.2
  let raw := aGet d name
  let isReq := isRequiredField ann
  let step1 : JDict × Issues :=
    if isListField ann then
      -- lines 75-78: a raw string is split on commas into trimmed non-empty tokens
      let d1 := match raw with
        | some (.jstr s) => aSet d name (.jlist (splitCommaTrim s))
        | _ => d
      let current := aGet d1 name
      if optNone current && isReq then
        (d1, aSet issues ("missing_" ++ name)
              ("Required list field \x27" ++ name ++ "\x27 is missing."))
      else if !optIsList current && !optNone current then
        -- lines 83-86: non-list non-None value wrapped as a single-element list
        (aSet d1 name (.jlist [.jstr (pyStr ((current).getD .jnull))]),
         aSet issues ("type_error_" ++ name)
           ("Expected list for \x27" ++ name ++ "\x27, got " ++ pyType ((current).getD .jnull) ++
            ". Using as single-element list."))
      else
        (d1, issues)
    else
      (d, issues)
  -- lines 97-102: general check for missing required fields
  let d2 := step1.1
  let issues2 := step1.2
  let finalValue := aGet d2 name
  if optNone finalValue && isReq && !aMem issues2 ("missing_" ++ name) then
    (d2, aSet issues2 ("missing_" ++ name) ("Required field \x27" ++ name ++ "\x27 is missing."))
  else
    (d2, issues2)

/-- The full per-field coercion loop over ModelCard.model_fields (validate.py line 59). -/
def coerceLoop (extracted : JDict) : JDict × Issues :=
  modelFields.foldl coerceField (extracted, [])

/-- Vocabulary validation of computational_requirements (validate.py lines 105-109):
a present value outside the allowed list is flagged and replaced by the fallback. -/
def vocabCompute (acc : JDict × Issues) : JDict × Issues :=
  let computeReq := aGet acc.1 ("computational_requirements")
  if optNone computeReq then
    acc
  else if pyInStrList ((computeReq).getD .jnull) allowedCompute then
    acc
  else
    (aSet acc.1 ("computational_requirements") (.jstr ("None specified")),
     aSet acc.2 ("invalid_compute")
       ("Value \x27" ++ pyStr ((computeReq).getD .jnull) ++ "\x27 not in " ++
        pyStr (.jlist (allowedCompute.map .jstr))))

/-- Vocabulary validation of category (validate.py lines 111-126): list values are
filtered to the allowed set, non-list values are deleted with a type error. -/
def vocabCategory (acc : JDict × Issues) : JDict × Issues :=
  let categoryList := aGet acc.1 ("category")
  if optNone categoryList then
    acc
  else
    match (categoryList).getD .jnull with
    | .jlist xs =>
      let validCats := xs.filter (fun c => pyInStrList c allowedCategories)
      let invalidCats := xs.filter (fun c => !pyInStrList c allowedCategories)
      let issues2 :=
        if !invalidCats.isEmpty then
          aSet acc.2 ("invalid_category") ("Invalid categories found: " ++ pyStr (.jlist invalidCats))
        else acc.2
      (aSet acc.1 ("category") (.jlist validCats), issues2)
    | v =>
      let issues2 := aSet acc.2 ("type_error_category")
        ("Field \x27category\x27 should be a list, got " ++ pyType v ++ ".")
      (if aMem acc.1 ("category") then aDel acc.1 ("category") else acc.1, issues2)

/-- Vocabulary validation (validate.py lines 104-126). -/
def vocabCheck (acc : JDict × Issues) : JDict × Issues :=
  vocabCategory (vocabCompute acc)

/-- Coercion plus vocabulary validation: the issue-producing phase of
synthesize_and_validate (validate.py lines 54-126). -/
def coercePhase (extracted : JDict) : JDict × Issues :=
  vocabCheck (coerceLoop extracted)

/-- validate.py line 132: keep only keys defined in ModelCard.model_fields. -/
def filterToSchema (d : JDict) : JDict :=
  d.filter (fun kv => decide (kv.1 ∈ fieldNames))

/-- validate.py lines 138-144: shape-appropriate empty default for a missing field. -/
def emptyDefault (ann : FieldAnn) : JValue :=
  if annContainsList ann then .jlist [] else .jstr ""

/-- One iteration of the default-filling loop (validate.py lines 134-144). -/
def fillStep (d : JDict) (field : String × FieldAnn) : JDict :=
  if optNone (aGet d field.1) then aSet d field.1 (emptyDefault field.2) else d

/-- validate.py lines 131-144: filter to schema keys, then fill each field whose
value is still None with its shape-appropriate empty default. -/
def fillDefaults (d : JDict) : JDict :=
  modelFields.foldl fillStep (filterToSchema d)

/-- Pydantic v2 lax-mode acceptance for the two annotations in the schema:
a str field accepts exactly str, and Union[List[str], str] accepts a str or a
list whose elements are all str (v2 performs no int/None-to-str coercion). -/
def validateFieldValue : FieldAnn → JValue → Bool
  | .annStr, .jstr _ => true
  | .annStr, _ => false
  | .annUnionListStr, .jstr _ => true
  | .annUnionListStr, .jlist xs => xs.all (fun x => match x with | .jstr _ => true | _ => false)
  | .annUnionListStr, _ => false

/-- ModelCard(**data) followed by model_dump() (validate.py lines 147-150): an
absent key takes the declared default "N/A"; a present value must satisfy its
annotation; on success the dump lists every field in declaration order. -/
def pydanticValidate (d : JDict) : Except String JDict :=
  let bad := modelFields.filter (fun f =>
    match aGet d f.1 with
    | none => false
    | some v => !validateFieldValue f.2 v)
  if bad.isEmpty then
    .ok (modelFields.map (fun f => (f.1, (aGet d f.1).getD (.jstr ("N/A")))))
  else
    .error ("validation error for ModelCard fields: " ++
            String.intercalate (", ") (bad.map Prod.fst))

/-- The dictionary returned by the synthesize_and_validate node. -/
structure SynthOut where
  model_card : Option JDict
  validation_issues : Issues
  error_messages : List String

/-- Core of synthesize_and_validate as a function of the only two state fields
it reads (validate.py lines 20-166). -/
def synthCore (extracted : JDict) (errors : List String) : SynthOut :=
  if extracted.isEmpty then
    { model_card := none,
      validation_issues := [("synthesis", "No data available to synthesize or validate.")],
      error_messages := errors ++ ["No extracted information to synthesize."] }
  else
    -- coerced_data is the coercion + vocabulary phase; model_data_for_validation
    -- is its schema-filtered, default-filled copy (validate.py lines 54-147)
    match pydanticValidate (fillDefaults (coercePhase extracted).1) with
    | .ok dump =>
      { model_card := some dump,
        validation_issues := (coercePhase extracted).2,
        error_messages := errors }
    | .error e =>
      { model_card := some (coercePhase extracted).1,
        validation_issues := aSet ((coercePhase extracted).2) ("pydantic_validation") e,
        error_messages := errors ++ ["Final validation failed: " ++ e] }

/-- synthesize_and_validate reads only extracted_info and error_messages from the state. -/
def synthesize_and_validate (state : GraphState) : SynthOut :=
  synthCore state.extracted_info state.error_messages

/-!
Field extraction: src/agents/extract.py, information_extraction.

The LLM chain (prompt building, model invocation, JsonOutputParser) and the
vector-store retriever are external collaborators; they are modelled by an
oracle keyed by the field name.  A fallback-model oracle is included for
completeness, although the source can never reach the fallback call: both
exception handlers (lines 196 and 228) evaluate the never-bound local err_msg
first, so any exception from the chain raises NameError inside the handler.
That NameError escapes the per-field handlers and is caught only by the
outermost handler (lines 262-267), which appends one critical error and
resets extracted_info to the empty dict.
-/

/-- Outcome of one extract_chain.invoke call: the parsed JSON value, or an
exception whose str() is the given message. -/
inductive ModelOutcome where
  | ok (v : JValue)
  | raises (msg : String)

/-- External collaborators of information_extraction. -/
structure ExtractEnv where
  licenseLine : Option String
  gitAuthors : Option (List String)
  embeddingsOk : Bool
  vectorstore : Except String Unit
  retrieve : String → List String
  invoke : String → ModelOutcome
  invokeFallback : String → ModelOutcome

/-- extract.py line 74: repo_url.rstrip("/").rstrip(".git").split("/")[-1]. -/
def capName (url : String) : String :=
  (pySplitChar (rstripChars (rstripChars url ("/")) (".git")) ('/')).getLastD ""

/-- Robust parsing of the raw chain output (extract.py lines 170-182): the value
is taken only from the exact field-name key of a dict response. -/
def parsedFieldValue (raw : JValue) (name : String) : Option JValue :=
  match raw with
  | .jdict kvs => aGet kvs name
  | _ => none

/-- The critical error recorded when the NameError on the unbound err_msg local
reaches the outermost handler: str(e) of that NameError (lines 262-266). -/
def criticalErrMsg : String :=
  "Critical information_extraction error: name \x27err_msg\x27 is not defined"

/-- The per-field RAG loop (extract.py lines 130-254).  A raising invocation
ends the whole node through the err_msg NameError: the loop stops, the single
critical error is appended, and extracted_info becomes the empty dict. -/
def extractLoop (env : ExtractEnv) : List String → JDict → List String → JDict × List String
  | [], extracted, errors => (extracted, errors)
  | fname :: rest, extracted, errors =>
    if (env.retrieve fname).isEmpty then
      -- lines 138-143: no relevant docs, populate null only if not prepopulated
      let extracted1 := if aMem extracted fname then extracted else aSet extracted fname .jnull
      extractLoop env rest extracted1 errors
    else
      match env.invoke fname with
      | .ok raw =>
        let fieldValue := parsedFieldValue raw fname
        if optNone fieldValue then
          -- lines 185-189: null only if not prepopulated
          let extracted1 := if aMem extracted fname then extracted else aSet extracted fname .jnull
          extractLoop env rest extracted1 errors
        else
          -- lines 190-192: a non-null value is written unconditionally
          extractLoop env rest (aSet extracted fname ((fieldValue).getD .jnull)) errors
      | .raises _ =>
        -- lines 194-254 + 262-267: err_msg NameError aborts the node
        ([], errors ++ [criticalErrMsg])

/-- information_extraction (extract.py lines 56-269). -/
def information_extraction (env : ExtractEnv) (state : GraphState) : JDict × List String :=
  let errors := state.error_messages
  -- prepopulation (lines 66-90)
  let repoUrl := (aGet state.input_urls ("github")).getD ""
  let extracted : JDict := []
  let extracted :=
    if repoUrl != "" then aSet extracted ("capability_name") (.jstr (capName repoUrl))
    else extracted
  let extracted := match env.licenseLine with
    | some l => aSet extracted ("license") (.jstr l)
    | none => extracted
  let extracted := match env.gitAuthors with
    | some authors => aSet extracted ("key_contributors") (.jlist (authors.map .jstr))
    | none => aSet extracted ("key_contributors") (.jlist [])
  -- lines 92-95: embeddings guard returns an EMPTY extracted_info
  if !env.embeddingsOk then
    ([], errors ++ ["CRITICAL: Embeddings model not initialized."])
  -- lines 97-99: no documents guard, also returns an empty extracted_info
  else if (state.github_docs ++ state.docs_docs).isEmpty then
    ([], errors ++ ["No documents found. Skipping vector store and RAG."])
  else
    match env.vectorstore with
    | .error e =>
      -- an exception while loading or building the FAISS store reaches the
      -- outermost handler (lines 262-267)
      ([], errors ++ ["Critical information_extraction error: " ++ e])
    | .ok _ =>
      -- the vectorstore object is non-None whenever no exception occurred, so
      -- the RAG loop of lines 125-256 runs (the else of line 258 is unreachable)
      extractLoop env fieldNames extracted errors

/-!
Publication search: src/agents/web_agents.py, fetch_publications.

The Tavily search tool, the citation-parsing LLM chain and the DOI regex
re.search are external calls, modelled by oracles.
-/

/-- External collaborators of fetch_publications. -/
structure PubEnv where
  searchToolOk : Bool
  llmOk : Bool
  searchRun : String → Except String String
  llmInvoke : Except String String
  doiSearch : String → Option String

/-- The search-query loop (web_agents.py lines 264-272): the first raising query
appends one error message and ends the loop. -/
def runSearchQueries (run : String → Except String String) : List String → List String
  | [] => []
  | q :: rest =>
    match run q with
    | .ok _ => runSearchQueries run rest
    | .error e => ["Search query failed: " ++ e]

/-- fetch_publications (web_agents.py lines 212-325), returning the updated
extracted_info and error_messages. -/
def fetch_publications (env : PubEnv) (state : GraphState) : JDict × List String :=
  let extracted := state.extracted_info
  let errors := state.error_messages
  let capability := aGet extracted ("capability_name")
  if !env.searchToolOk then
    (extracted, errors ++ ["CRITICAL: Search tool not initialized."])
  else if !env.llmOk then
    (extracted, errors ++ ["CRITICAL: LLM not initialized for publication parsing."])
  else if !pyTruthy ((capability).getD .jnull) then
    -- lines 251-253: skip when capability_name is falsy or absent
    (extracted, errors)
  else
    let capStr := pyStr ((capability).getD .jnull)
    let queries := ["most important publication describing " ++ capStr ++ " software",
                    "\"Journal of Open Source Software\" " ++ capStr,
                    "citation OR paper " ++ capStr ++ " model"]
    let errors1 := errors ++ runSearchQueries env.searchRun queries
    -- line 274: all_results_text always begins with a non-blank header, so the
    -- empty-results early return is unreachable
    match env.llmInvoke with
    | .error e =>
      -- lines 320-323: the outer handler absorbs the chain exception
      (extracted, errors1 ++ ["Publication fetch node error: " ++ e])
    | .ok keyPub =>
      if keyPub != "" && !containsSub keyPub ("No key publication identified.") then
        let extracted1 := aSet extracted ("key_publications") (.jstr (pyStrip keyPub))
        match env.doiSearch keyPub with
        | some foundDoi =>
          -- lines 311-316: write the DOI only when the existing entry is falsy
          if !pyTruthy ((aGet extracted1 ("doi")).getD .jnull) then
            (aSet extracted1 ("doi") (.jstr foundDoi), errors1)
          else
            (extracted1, errors1)
        | none => (extracted1, errors1)
      else
        (extracted, errors1)

/-!
Concrete runs used by the per-claim witnesses and counterexamples.
-/

/-- The model invocation for field f never raised an exception. -/
def noRaises (env : ExtractEnv) : Prop :=
  ∀ f m, env.invoke f ≠ ModelOutcome.raises m

/-- The extraction of field f yields no value: retrieval returned no passages,
or the parsed chain output carries null (or lacks the field-name key). -/
def nullishFor (env : ExtractEnv) (f : String) : Prop :=
  env.retrieve f = [] ∨ ∀ v, env.invoke f = ModelOutcome.ok v → optNone (parsedFieldValue v f) = true

/-- A run whose model answers null for every field. -/
def c1Env : ExtractEnv :=
  { licenseLine := none,
    gitAuthors := some ["Alice Doe"],
    embeddingsOk := true,
    vectorstore := .ok (),
    retrieve := fun _ => ["chunk"],
    invoke := fun f => .ok (.jdict [(f, .jnull)]),
    invokeFallback := fun _ => .ok .jnull }

/-- A run whose model proposes a non-null capability_name of its own. -/
def c1OverEnv : ExtractEnv :=
  { c1Env with
    invoke := fun f =>
      if f = "capability_name" then .ok (.jdict [(f, .jstr ("renamed-tool"))])
      else .ok (.jdict [(f, .jnull)]) }

/-- Input state for the prepopulation runs: the mosartwmpy repository URL. -/
def c1State : GraphState :=
  { input_urls := [("github", "https://github.com/IMMM-SFA/mosartwmpy")],
    github_docs := ["doc chunk"],
    docs_docs := [],
    extracted_info := [],
    model_card := none,
    error_messages := [],
    validation_issues := [] }

/-- End-to-end scenario 1 input: the category field as a comma-separated string. -/
def c2State : GraphState :=
  { input_urls := [],
    github_docs := [],
    docs_docs := [],
    extracted_info := [("category", .jstr ("Energy, Water Management, Quantum"))],
    model_card := none,
    error_messages := [],
    validation_issues := [] }

/-- A run whose second field raises a generic (non-quota) invocation error after
the first field extracted successfully. -/
def c3Env : ExtractEnv :=
  { licenseLine := some "MIT License",
    gitAuthors := some ["Alice Doe"],
    embeddingsOk := true,
    vectorstore := .ok (),
    retrieve := fun _ => ["chunk"],
    invoke := fun f =>
      if f = "brief_description" then .raises "APITimeoutError: Request timed out."
      else .ok (.jdict [(f, .jstr ("some value"))]),
    invokeFallback := fun _ => .ok .jnull }

/-- Input state for the raising runs. -/
def c3State : GraphState :=
  { input_urls := [("github", "https://github.com/IMMM-SFA/mosartwmpy")],
    github_docs := ["doc chunk"],
    docs_docs := [],
    extracted_info := [],
    model_card := none,
    error_messages := [],
    validation_issues := [] }

/-- A run whose first invocation raises a capacity/quota-class error. -/
def c4Env : ExtractEnv :=
  { licenseLine := none,
    gitAuthors := some ["Alice Doe"],
    embeddingsOk := true,
    vectorstore := .ok (),
    retrieve := fun _ => ["chunk"],
    invoke := fun f =>
      if f = "capability_name" then .raises "Error code: 429 - insufficient_quota"
      else .ok (.jdict [(f, .jnull)]),
    invokeFallback := fun _ => .ok (.jdict []) }

/-- Input state for the quota-error run. -/
def c4State : GraphState :=
  { input_urls := [("github", "https://github.com/IMMM-SFA/mosartwmpy")],
    github_docs := ["doc chunk"],
    docs_docs := [],
    extracted_info := [],
    model_card := none,
    error_messages := [],
    validation_issues := [] }

/-- End-to-end scenario 2 input: computational_requirements = "Supercomputer". -/
def c6State : GraphState :=
  { input_urls := [],
    github_docs := [],
    docs_docs := [],
    extracted_info := [("computational_requirements", .jstr ("Supercomputer"))],
    model_card := none,
    error_messages := [],
    validation_issues := [] }

/-- Input whose category raw value is a non-list scalar, producing a coercion issue. -/
def c7State : GraphState :=
  { input_urls := [],
    github_docs := [],
    docs_docs := [],
    extracted_info := [("category", .jstr ("Energy"))],
    model_card := none,
    error_messages := [],
    validation_issues := [] }

/-- A state with non-empty extracted values and a prior error message. -/
def c8State : GraphState :=
  { input_urls := [],
    github_docs := [],
    docs_docs := [],
    extracted_info := [("capability_name", .jstr ("mosartwmpy"))],
    model_card := none,
    error_messages := ["Missing Docs URL."],
    validation_issues := [] }

/-- Input whose computational_requirements is the list ["HPC"]. -/
def c9State : GraphState :=
  { input_urls := [],
    github_docs := [],
    docs_docs := [],
    extracted_info := [("computational_requirements", .jlist [.jstr ("HPC")])],
    model_card := none,
    error_messages := [],
    validation_issues := [] }

/-- A publication-search run that finds a citation carrying a new DOI. -/
def c10Env : PubEnv :=
  { searchToolOk := true,
    llmOk := true,
    searchRun := fun _ => .ok "search results",
    llmInvoke := .ok "mosartwmpy paper. JOSS 6(62), 2021. DOI: 10.21105/joss.03221",
    doiSearch := fun _ => some "10.21105/joss.03221" }

/-- Input state whose doi field is already populated. -/
def c10State : GraphState :=
  { input_urls := [],
    github_docs := [],
    docs_docs := [],
    extracted_info := [("capability_name", .jstr ("mosartwmpy")), ("doi", .jstr ("10.5281/zenodo.1234567"))],
    model_card := none,
    error_messages := [],
    validation_issues := [] }

/-!
Dictionary lemmas.
-/

theorem aGet_aSet_self {a : Type} (d : List (String × a)) (k : String) (v : a) :
    aGet (aSet d k v) k = some v := by
  induction d with
  | nil => simp [aSet, aGet]
  | cons kv rest ih =>
    obtain ⟨k0, v0⟩ := kv
    by_cases h : k0 = k
    · subst h
      simp [aSet, aGet]
    · simp [aSet, aGet, h, ih]

theorem aGet_aSet_ne {a : Type} (d : List (String × a)) (k key : String) (v : a)
    (h : key ≠ k) : aGet (aSet d k v) key = aGet d key := by
  induction d with
  | nil => simp [aSet, aGet, Ne.symm h]
  | cons kv rest ih =>
    obtain ⟨k0, v0⟩ := kv
    by_cases h0 : k0 = k
    · subst h0
      simp [aSet, aGet, Ne.symm h]
    · by_cases h1 : k0 = key
      · subst h1
        simp [aSet, aGet, h0]
      · simp [aSet, aGet, h0, h1, ih]

theorem aGet_aDel_ne {a : Type} (d : List (String × a)) (k key : String)
    (h : key ≠ k) : aGet (aDel d k) key = aGet d key := by
  induction d with
  | nil => simp [aDel]
  | cons kv rest ih =>
    obtain ⟨k0, v0⟩ := kv
    by_cases h0 : k0 = k
    · subst h0
      simp [aDel, aGet, Ne.symm h]
    · by_cases h1 : k0 = key
      · subst h1
        simp [aDel, aGet, h0]
      · simp [aDel, aGet, h0, h1, ih]

theorem aMem_aSet_mono {a : Type} (d : List (String × a)) (k key : String) (v : a)
    (h : aMem d key = true) : aMem (aSet d k v) key = true := by
  by_cases hk : key = k
  · subst hk
    simp [aMem, aGet_aSet_self]
  · simpa [aMem, aGet_aSet_ne d k key v hk] using h

theorem mem_aSet_elim {a : Type} {d : List (String × a)} {k : String} {v : a}
    {kv : String × a} (h : kv ∈ aSet d k v) : kv ∈ d ∨ kv.1 = k := by
  induction d with
  | nil =>
    simp [aSet] at h
    subst h
    right
    rfl
  | cons kv0 rest ih =>
    obtain ⟨k0, v0⟩ := kv0
    by_cases h0 : k0 = k
    · subst h0
      simp only [aSet, if_pos rfl] at h
      rcases List.mem_cons.mp h with he | hr
      · right
        rw [he]
      · left
        exact List.mem_cons_of_mem _ hr
    · simp only [aSet, if_neg h0] at h
      rcases List.mem_cons.mp h with he | hr
      · left
        rw [he]
        exact List.mem_cons_self _ _
      · rcases ih hr with hm | hk
        · left
          exact List.mem_cons_of_mem _ hm
        · right
          exact hk

theorem mem_aSet_of_ne {a : Type} {d : List (String × a)} {kv : String × a}
    (h : kv ∈ d) (k : String) (hne : kv.1 ≠ k) (v : a) : kv ∈ aSet d k v := by
  induction d with
  | nil => cases h
  | cons kv0 rest ih =>
    obtain ⟨k0, v0⟩ := kv0
    by_cases h0 : k0 = k
    · subst h0
      simp only [aSet, if_pos rfl]
      rcases List.mem_cons.mp h with he | hr
      · exact absurd (by rw [he]) hne
      · exact List.mem_cons_of_mem _ hr
    · simp only [aSet, if_neg h0]
      rcases List.mem_cons.mp h with he | hr
      · rw [he]
        exact List.mem_cons_self _ _
      · exact List.mem_cons_of_mem _ (ih hr)

theorem aGet_ne_nil {a : Type} {d : List (String × a)} {k : String} {v : a}
    (h : aGet d k = some v) : d.isEmpty = false := by
  cases d with
  | nil => simp [aGet] at h
  | cons kv rest => rfl

/-!
Coercion-loop lemmas: no ModelCard field satisfies the runtime list-shape test
of validate.py lines 68-71 and none is required, so the per-field loop leaves
both the data and the issue map unchanged.
-/

theorem isListField_false (ann : FieldAnn) : isListField ann = false := by
  cases ann <;> rfl

theorem coerceField_id (acc : JDict × Issues) (f : String × FieldAnn) :
    coerceField acc f = acc := by
  obtain ⟨d, i⟩ := acc
  obtain ⟨n, ann⟩ := f
  simp [coerceField, isListField_false, isRequiredField]

theorem foldl_coerceField_id (l : List (String × FieldAnn)) (acc : JDict × Issues) :
    l.foldl coerceField acc = acc := by
  induction l generalizing acc with
  | nil => rfl
  | cons f rest ih => rw [List.foldl_cons, coerceField_id, ih]

theorem coerceLoop_eq (d : JDict) : coerceLoop d = (d, []) :=
  foldl_coerceField_id modelFields (d, [])

/-!
Default-filling lemmas (validate.py lines 131-144).
-/

theorem modelFields_keys_nodup : fieldNames.Nodup := by decide

theorem optNone_emptyDefault (ann : FieldAnn) : optNone (some (emptyDefault ann)) = false := by
  cases ann <;> rfl

theorem aGet_filterToSchema (d : JDict) (k : String) :
    aGet (filterToSchema d) k = if k ∈ fieldNames then aGet d k else none := by
  induction d with
  | nil =>
    simp only [filterToSchema, List.filter_nil, aGet]
    split <;> rfl
  | cons kv rest ih =>
    obtain ⟨k0, v0⟩ := kv
    simp only [filterToSchema] at ih
    by_cases h0 : k0 ∈ fieldNames
    · by_cases hkey : k0 = k
      · subst hkey
        simp [filterToSchema, List.filter_cons, h0, aGet]
      · simp [filterToSchema, List.filter_cons, h0, aGet, hkey, ih]
    · by_cases hkey : k0 = k
      · subst hkey
        simp [filterToSchema, List.filter_cons, h0, aGet, ih]
      · simp [filterToSchema, List.filter_cons, h0, aGet, hkey, ih]

theorem foldl_fillStep_preserve (l : List (String × FieldAnn)) (d : JDict) (n : String)
    (h : optNone (aGet d n) = false) :
    aGet (l.foldl fillStep d) n = aGet d n := by
  induction l generalizing d with
  | nil => rfl
  | cons f rest ih =>
    have hg : aGet (fillStep d f) n = aGet d n := by
      by_cases hfn : f.1 = n
      · have : fillStep d f = d := by
          unfold fillStep
          rw [hfn, h]
          rfl
        rw [this]
      · unfold fillStep
        split
        · exact aGet_aSet_ne d f.1 n (emptyDefault f.2) (fun he => hfn he.symm)
        · rfl
    rw [List.foldl_cons, ih (fillStep d f) (by rw [hg]; exact h), hg]

theorem foldl_fillStep_sets (l : List (String × FieldAnn)) (d : JDict) (n : String)
    (ann : FieldAnn) (hmem : (n, ann) ∈ l) (hnd : (l.map Prod.fst).Nodup)
    (h : optNone (aGet d n) = true) :
    aGet (l.foldl fillStep d) n = some (emptyDefault ann) := by
  induction l generalizing d with
  | nil => cases hmem
  | cons f rest ih =>
    rw [List.foldl_cons]
    rw [List.map_cons] at hnd
    have hhead := (List.nodup_cons.mp hnd).1
    have htail := (List.nodup_cons.mp hnd).2
    rcases List.mem_cons.mp hmem with he | hr
    · have hstep : fillStep d f = aSet d n (emptyDefault ann) := by
        unfold fillStep
        rw [← he, h]
        rfl
      have hget : aGet (aSet d n (emptyDefault ann)) n = some (emptyDefault ann) :=
        aGet_aSet_self d n (emptyDefault ann)
      rw [hstep, foldl_fillStep_preserve rest _ n (by rw [hget]; exact optNone_emptyDefault ann)]
      exact hget
    · have hne : f.1 ≠ n := by
        intro hfe
        exact hhead (hfe ▸ List.mem_map_of_mem Prod.fst hr)
      have hg : aGet (fillStep d f) n = aGet d n := by
        unfold fillStep
        split
        · exact aGet_aSet_ne d f.1 n (emptyDefault f.2) (fun he => hne he.symm)
        · rfl
      exact ih (fillStep d f) hr htail (by rw [hg]; exact h)

theorem fillDefaults_get (d : JDict) (n : String) (ann : FieldAnn)
    (hmem : (n, ann) ∈ modelFields) :
    aGet (fillDefaults d) n =
      if optNone (aGet d n) then some (emptyDefault ann) else aGet d n := by
  unfold fillDefaults
  have hf : aGet (filterToSchema d) n = aGet d n := by
    rw [aGet_filterToSchema,
      if_pos (show n ∈ fieldNames from List.mem_map_of_mem Prod.fst hmem)]
  by_cases h : optNone (aGet d n) = true
  · rw [if_pos h]
    exact foldl_fillStep_sets modelFields (filterToSchema d) n ann hmem
      modelFields_keys_nodup (by rw [hf]; exact h)
  · have h' : optNone (aGet d n) = false := by
      cases hb : optNone (aGet d n)
      · rfl
      · exact absurd hb h
    rw [if_neg h]
    rw [foldl_fillStep_preserve modelFields (filterToSchema d) n (by rw [hf]; exact h'), hf]

theorem aGet_map_fields (h : String → JValue) (l : List (String × FieldAnn)) (k : String)
    (ann : FieldAnn) (hm : (k, ann) ∈ l) :
    aGet (l.map (fun f => (f.1, h f.1))) k = some (h k) := by
  induction l with
  | nil => cases hm
  | cons f rest ih =>
    by_cases hfk : f.1 = k
    · simp [aGet, hfk]
    · rcases List.mem_cons.mp hm with he | hr
      · exact absurd (by rw [← he]) hfk
      · simp [aGet, hfk, ih hr]

/-!
Vocabulary-check lemmas (validate.py lines 104-126).
-/

theorem vocabCompute_keys (d : JDict) (i : Issues) (kv : String × String)
    (h : kv ∈ (vocabCompute (d, i)).2) :
    kv ∈ i ∨ kv.1 = "invalid_compute" := by
  simp only [vocabCompute] at h
  split at h
  · exact Or.inl h
  · split at h
    · exact Or.inl h
    · exact mem_aSet_elim h

theorem vocabCategory_keys (d : JDict) (i : Issues) (kv : String × String)
    (h : kv ∈ (vocabCategory (d, i)).2) :
    kv ∈ i ∨ kv.1 = "invalid_category" ∨ kv.1 = "type_error_category" := by
  simp only [vocabCategory] at h
  split at h
  · exact Or.inl h
  · split at h
    · dsimp only at h
      split at h
      · rcases mem_aSet_elim h with hm | hk
        · exact Or.inl hm
        · exact Or.inr (Or.inl hk)
      · exact Or.inl h
    · rcases mem_aSet_elim h with hm | hk
      · exact Or.inl hm
      · exact Or.inr (Or.inr hk)

theorem coercePhase_keys (extracted : JDict) (kv : String × String)
    (h : kv ∈ (coercePhase extracted).2) :
    kv.1 = "invalid_compute" ∨ kv.1 = "invalid_category" ∨ kv.1 = "type_error_category" := by
  unfold coercePhase vocabCheck at h
  rw [coerceLoop_eq] at h
  have h2 := vocabCategory_keys (vocabCompute (extracted, [])).1 (vocabCompute (extracted, [])).2
    kv (by simpa using h)
  rcases h2 with hm | hk
  · rcases vocabCompute_keys extracted [] kv hm with hm2 | hk2
    · cases hm2
    · exact Or.inl hk2
  · exact Or.inr hk

theorem vocabCompute_result (d : JDict) (i : Issues) (v : JValue)
    (hv : aGet d ("computational_requirements") = some v)
    (hnn : optNone (some v) = false)
    (hnm : pyInStrList v allowedCompute = false) :
    vocabCompute (d, i) =
      (aSet d ("computational_requirements") (.jstr ("None specified")),
       aSet i ("invalid_compute")
         ("Value \x27" ++ pyStr v ++ "\x27 not in " ++
          pyStr (.jlist (allowedCompute.map .jstr)))) := by
  simp only [vocabCompute, hv, Option.getD_some]
  rw [hnn, hnm]
  rfl

theorem vocabCategory_preserve (d : JDict) (i : Issues) :
    aGet (vocabCategory (d, i)).1 ("computational_requirements") =
      aGet d ("computational_requirements") ∧
    (aMem i ("invalid_compute") = true →
      aMem (vocabCategory (d, i)).2 ("invalid_compute") = true) := by
  simp only [vocabCategory]
  split
  · exact ⟨rfl, fun h => h⟩
  · split
    · constructor
      · exact aGet_aSet_ne d ("category") ("computational_requirements") _ (by decide)
      · intro h
        dsimp only
        split
        · exact aMem_aSet_mono i ("invalid_category") ("invalid_compute") _ h
        · exact h
    · constructor
      · dsimp only
        split
        · exact aGet_aDel_ne d ("category") ("computational_requirements") (by decide)
        · rfl
      · intro h
        exact aMem_aSet_mono i ("type_error_category") ("invalid_compute") _ h

/-- synthCore when the final pydantic validation succeeds (validate.py lines 146-151). -/
theorem synthCore_ok (extracted : JDict) (errors : List String) (cD : JDict) (cI : Issues)
    (dump : JDict) (h : extracted.isEmpty = false)
    (hsplit : coercePhase extracted = (cD, cI))
    (hpv : pydanticValidate (fillDefaults cD) = .ok dump) :
    synthCore extracted errors =
      { model_card := some dump,
        validation_issues := cI,
        error_messages := errors } := by
  unfold synthCore
  rw [h, hsplit]
  dsimp only
  rw [hpv]
  rfl

/-- synthCore when the final pydantic validation fails (validate.py lines 153-157). -/
theorem synthCore_error (extracted : JDict) (errors : List String) (cD : JDict) (cI : Issues)
    (e : String) (h : extracted.isEmpty = false)
    (hsplit : coercePhase extracted = (cD, cI))
    (hpv : pydanticValidate (fillDefaults cD) = .error e) :
    synthCore extracted errors =
      { model_card := some cD,
        validation_issues := aSet cI ("pydantic_validation") e,
        error_messages := errors ++ ["Final validation failed: " ++ e] } := by
  unfold synthCore
  rw [h, hsplit]
  dsimp only
  rw [hpv]
  rfl

/-- Once the coercion phase is known to have flagged and replaced the compute
value, the invalid_compute issue and the fallback token survive finalization. -/
theorem synth_props_of_coerce (extracted : JDict) (errors : List String)
    (cD : JDict) (cI : Issues)
    (hne : extracted.isEmpty = false)
    (hsplit : coercePhase extracted = (cD, cI))
    (hcomp : aGet cD ("computational_requirements") = some (.jstr ("None specified")))
    (hmemI : aMem cI ("invalid_compute") = true) :
    aMem (synthCore extracted errors).validation_issues ("invalid_compute") = true ∧
    ∃ card, (synthCore extracted errors).model_card = some card ∧
      aGet card ("computational_requirements") = some (.jstr ("None specified")) := by
  have hfd : aGet (fillDefaults cD) ("computational_requirements") =
      some (.jstr ("None specified")) := by
    rw [fillDefaults_get cD ("computational_requirements") (.annUnionListStr) (by decide), hcomp]
    rfl
  cases hpv : pydanticValidate (fillDefaults cD) with
  | ok dump =>
    rw [synthCore_ok extracted errors cD cI dump hne hsplit hpv]
    refine ⟨hmemI, dump, rfl, ?_⟩
    have hdump : dump = modelFields.map
        (fun f => (f.1, (aGet (fillDefaults cD) f.1).getD (.jstr ("N/A")))) := by
      simp only [pydanticValidate] at hpv
      split at hpv
      · exact (Except.ok.inj hpv).symm
      · cases hpv
    rw [hdump, aGet_map_fields (fun k => (aGet (fillDefaults cD) k).getD (.jstr ("N/A")))
      modelFields ("computational_requirements") (.annUnionListStr) (by decide)]
    simp only [hfd, Option.getD_some]
  | error e =>
    rw [synthCore_error extracted errors cD cI e hne hsplit hpv]
    exact ⟨aMem_aSet_mono _ _ _ _ hmemI, cD, rfl, hcomp⟩

theorem synth_compute_fallback (extracted : JDict) (errors : List String) (v : JValue)
    (hv : aGet extracted ("computational_requirements") = some v)
    (hnn : optNone (some v) = false)
    (hnm : pyInStrList v allowedCompute = false) :
    aMem (synthCore extracted errors).validation_issues ("invalid_compute") = true ∧
    ∃ card, (synthCore extracted errors).model_card = some card ∧
      aGet card ("computational_requirements") = some (.jstr ("None specified")) := by
  have hne := aGet_ne_nil hv
  have hP : coercePhase extracted = vocabCategory (vocabCompute (extracted, [])) := by
    unfold coercePhase vocabCheck
    rw [coerceLoop_eq]
  rw [vocabCompute_result extracted [] v hv hnn hnm] at hP
  refine synth_props_of_coerce extracted errors _ _ hne (hP.trans Prod.mk.eta.symm) ?_ ?_
  · rw [(vocabCategory_preserve _ _).1]
    exact aGet_aSet_self extracted _ _
  · exact (vocabCategory_preserve _ _).2 (by simp [aMem, aGet_aSet_self])

/-!
Extraction-loop lemmas (extract.py lines 130-254).
-/

theorem extractLoop_preserve (env : ExtractEnv) (f : String)
    (hnr : noRaises env) (hnull : nullishFor env f) :
    ∀ (fields : List String) (ex : JDict) (errs : List String),
    aMem ex f = true →
    aGet (extractLoop env fields ex errs).1 f = aGet ex f := by
  intro fields
  induction fields with
  | nil => intro ex errs _; rfl
  | cons g rest ih =>
    intro ex errs hmem
    unfold extractLoop
    by_cases hre : (env.retrieve g).isEmpty
    · rw [if_pos hre]
      have hstep : aGet (if aMem ex g then ex else aSet ex g .jnull) f = aGet ex f := by
        by_cases hgf : g = f
        · subst hgf
          rw [if_pos hmem]
        · split
          · rfl
          · exact aGet_aSet_ne ex g f .jnull (fun he => hgf he.symm)
      rw [ih _ errs (by rw [aMem, hstep]; exact hmem), hstep]
    · rw [if_neg hre]
      cases hinv : env.invoke g with
      | ok raw =>
        dsimp only
        by_cases hpn : optNone (parsedFieldValue raw g) = true
        · rw [if_pos hpn]
          have hstep : aGet (if aMem ex g then ex else aSet ex g .jnull) f = aGet ex f := by
            by_cases hgf : g = f
            · subst hgf
              rw [if_pos hmem]
            · split
              · rfl
              · exact aGet_aSet_ne ex g f .jnull (fun he => hgf he.symm)
          rw [ih _ errs (by rw [aMem, hstep]; exact hmem), hstep]
        · have hgf : g ≠ f := by
            intro he
            subst he
            rcases hnull with hret | hok
            · rw [hret] at hre
              exact hre rfl
            · exact hpn (hok raw hinv)
          rw [if_neg hpn]
          have hstep : aGet (aSet ex g ((parsedFieldValue raw g).getD .jnull)) f = aGet ex f :=
            aGet_aSet_ne ex g f _ (fun he => hgf he.symm)
          rw [ih _ errs (by rw [aMem, hstep]; exact hmem), hstep]
      | raises m => exact absurd hinv (hnr g m)

/-- When no invocation raises and the model yields nothing for a prepopulated
field, its prepopulated value survives the whole extraction loop: the
URL-derived capability_name and the git-derived key_contributors list
(the commit authors, or [] when the repository could not be opened). -/
theorem information_extraction_prepop (env : ExtractEnv) (s : GraphState)
    (hnr : noRaises env)
    (hnullCap : nullishFor env ("capability_name"))
    (hnullKC : nullishFor env ("key_contributors"))
    (hurl : ((aGet s.input_urls ("github")).getD "") ≠ "")
    (hemb : env.embeddingsOk = true)
    (hdocs : (s.github_docs ++ s.docs_docs).isEmpty = false)
    (hvs : env.vectorstore = Except.ok ()) :
    aGet (information_extraction env s).1 ("capability_name") =
      some (.jstr (capName ((aGet s.input_urls ("github")).getD ""))) ∧
    aGet (information_extraction env s).1 ("key_contributors") =
      some (.jlist (((env.gitAuthors).getD []).map .jstr)) := by
  have key : ∀ (f : String) (ex : JDict) (v : JValue), nullishFor env f →
      aGet ex f = some v →
      aGet (extractLoop env fieldNames ex s.error_messages).1 f = some v := by
    intro f ex v hnull hex
    rw [extractLoop_preserve env f hnr hnull fieldNames ex s.error_messages
      (by simp [aMem, hex]), hex]
  unfold information_extraction
  rw [hemb, hdocs, hvs]
  dsimp only
  rw [if_pos (bne_iff_ne.mpr hurl)]
  cases env.licenseLine with
  | none =>
    cases env.gitAuthors with
    | some authors =>
      dsimp only
      constructor
      · apply key _ _ _ hnullCap
        rw [aGet_aSet_ne _ _ _ _ (by decide)]
        exact aGet_aSet_self _ _ _
      · apply key _ _ _ hnullKC
        exact aGet_aSet_self _ _ _
    | none =>
      dsimp only
      constructor
      · apply key _ _ _ hnullCap
        rw [aGet_aSet_ne _ _ _ _ (by decide)]
        exact aGet_aSet_self _ _ _
      · apply key _ _ _ hnullKC
        exact aGet_aSet_self _ _ _
  | some l =>
    cases env.gitAuthors with
    | some authors =>
      dsimp only
      constructor
      · apply key _ _ _ hnullCap
        rw [aGet_aSet_ne _ _ _ _ (by decide), aGet_aSet_ne _ _ _ _ (by decide)]
        exact aGet_aSet_self _ _ _
      · apply key _ _ _ hnullKC
        exact aGet_aSet_self _ _ _
    | none =>
      dsimp only
      constructor
      · apply key _ _ _ hnullCap
        rw [aGet_aSet_ne _ _ _ _ (by decide), aGet_aSet_ne _ _ _ _ (by decide)]
        exact aGet_aSet_self _ _ _
      · apply key _ _ _ hnullKC
        exact aGet_aSet_self _ _ _

/-!
Claim theorems.
-/

theorem cardFalsy_iff (c : Option JDict) :
    cardFalsy c = true ↔ (c = none ∨ c = some []) := by
  cases c with
  | none => simp [cardFalsy]
  | some d => cases d <;> simp [cardFalsy]

/-- C5: decide_next_step routes the run to the FAILURE terminal (error_handler)
if and only if some error message records a fetch hard failure, or some error
message records that the vector store failed to initialize, or the
validation-issue map is non-empty, or no truthy finalized model_card exists
(None or the empty dict); when none of these hold it routes to SUCCESS (END). -/
theorem c5_decide_next_step_routing (s : GraphState) :
    (decide_next_step s = Route.error_handler ↔
      ((∃ m ∈ s.error_messages, containsSub (pyLower m) ("fetch failed") = true) ∨
       (∃ m ∈ s.error_messages, containsSub (pyLower m) ("vector store initialization failed") = true) ∨
       s.validation_issues ≠ [] ∨
       s.model_card = none ∨ s.model_card = some [])) ∧
    (decide_next_step s = Route.endRoute ↔
      ¬ ((∃ m ∈ s.error_messages, containsSub (pyLower m) ("fetch failed") = true) ∨
         (∃ m ∈ s.error_messages, containsSub (pyLower m) ("vector store initialization failed") = true) ∨
         s.validation_issues ≠ [] ∨
         s.model_card = none ∨ s.model_card = some [])) := by
  have key : decide_next_step s = Route.error_handler ↔
      ((∃ m ∈ s.error_messages, containsSub (pyLower m) ("fetch failed") = true) ∨
       (∃ m ∈ s.error_messages, containsSub (pyLower m) ("vector store initialization failed") = true) ∨
       s.validation_issues ≠ [] ∨
       s.model_card = none ∨ s.model_card = some []) := by
    unfold decide_next_step
    dsimp only
    split_ifs with h1 h2 h3 h4
    · exact iff_of_true rfl (Or.inl (List.any_eq_true.mp h1))
    · exact iff_of_true rfl (Or.inr (Or.inl (List.any_eq_true.mp h2)))
    · have hiss : s.validation_issues ≠ [] := by
        intro hnil
        rw [hnil] at h3
        simp at h3
      exact iff_of_true rfl (Or.inr (Or.inr (Or.inl hiss)))
    · exact iff_of_true rfl (Or.inr (Or.inr (Or.inr ((cardFalsy_iff s.model_card).mp h4))))
    · refine iff_of_false (by simp) ?_
      intro hr
      rcases hr with h | h | h | h
      · exact h1 (List.any_eq_true.mpr h)
      · exact h2 (List.any_eq_true.mpr h)
      · apply h
        have hie : s.validation_issues.isEmpty = true := by
          cases hb : s.validation_issues.isEmpty
          · exact absurd (by rw [hb]; rfl) h3
          · rfl
        exact List.isEmpty_iff.mp hie
      · exact h4 ((cardFalsy_iff s.model_card).mpr h)
  refine ⟨key, ?_, ?_⟩
  · intro hend hr
    have hcon := key.mpr hr
    rw [hend] at hcon
    exact Route.noConfusion hcon
  · intro hnr
    cases hd : decide_next_step s with
    | error_handler => exact absurd (key.mp hd) hnr
    | endRoute => rfl

/-- C2 (counterexample): on raw input category = "Energy, Water Management, Quantum"
the pipeline does NOT produce the coerced list ["Energy", "Water Management"] and
records no invalid-value (invalid_category) issue naming "Quantum"; the cleaned
category is the empty list and the only issue is a type error. -/
theorem c2_counterexample :
    aMem (synthesize_and_validate c2State).validation_issues ("invalid_category") = false ∧
    (synthesize_and_validate c2State).model_card.map (fun card => aGet card ("category")) =
      some (some (.jlist [])) ∧
    (JValue.jlist []) ≠
      (JValue.jlist [.jstr ("Energy"), .jstr ("Water Management")]) := by
  refine ⟨rfl, rfl, ?_⟩
  intro h
  cases h

/-- C2 (amended): since category is annotated Union[List[str], str], the runtime
list-shape test of the coercion loop does not fire and the raw string is never
split on commas; instead the category vocabulary check records a
type_error_category issue and deletes the field, and the finalizer fills
category with the empty list, which then validates. -/
theorem c2_amended_category_string_behaviour :
    (synthesize_and_validate c2State).validation_issues =
      [("type_error_category", "Field \x27category\x27 should be a list, got <class \x27str\x27>.")] ∧
    (synthesize_and_validate c2State).model_card.map (fun card => aGet card ("category")) =
      some (some (.jlist [])) ∧
    isListField (.annUnionListStr) = false := ⟨rfl, rfl, rfl⟩

/-- C6: a present scalar computational_requirements outside the allowed
vocabulary is recorded as an invalid_compute issue and replaced by the fallback
token "None specified", which is a member of the allowed set. -/
theorem c6_compute_vocabulary_fallback (s : GraphState) (str : String)
    (hv : aGet s.extracted_info ("computational_requirements") = some (.jstr str))
    (hnm : pyInStrList (.jstr str) allowedCompute = false) :
    aMem (synthesize_and_validate s).validation_issues ("invalid_compute") = true ∧
    (∃ card, (synthesize_and_validate s).model_card = some card ∧
      aGet card ("computational_requirements") = some (.jstr ("None specified"))) ∧
    pyInStrList (.jstr ("None specified")) allowedCompute = true := by
  have h := synth_compute_fallback s.extracted_info s.error_messages (.jstr str) hv rfl hnm
  exact ⟨h.1, h.2, rfl⟩

/-- C6 witness: the concrete scenario computational_requirements = "Supercomputer". -/
theorem c6_witness :
    aMem (synthesize_and_validate c6State).validation_issues ("invalid_compute") = true ∧
    (∃ card, (synthesize_and_validate c6State).model_card = some card ∧
      aGet card ("computational_requirements") = some (.jstr ("None specified"))) ∧
    pyInStrList (.jstr ("None specified")) allowedCompute = true :=
  c6_compute_vocabulary_fallback c6State ("Supercomputer") rfl rfl

/-- C9: the compute vocabulary check tests the whole raw value for membership,
so any list value, even ["HPC"] whose only element is allowed, is flagged as
invalid_compute and replaced by the scalar "None specified". -/
theorem c9_compute_list_always_invalid (s : GraphState) (xs : List JValue)
    (hv : aGet s.extracted_info ("computational_requirements") = some (.jlist xs)) :
    aMem (synthesize_and_validate s).validation_issues ("invalid_compute") = true ∧
    ∃ card, (synthesize_and_validate s).model_card = some card ∧
      aGet card ("computational_requirements") = some (.jstr ("None specified")) :=
  synth_compute_fallback s.extracted_info s.error_messages (.jlist xs) hv rfl rfl

/-- C9 witness: the concrete all-allowed list ["HPC"] is still flagged and replaced. -/
theorem c9_witness :
    aMem (synthesize_and_validate c9State).validation_issues ("invalid_compute") = true ∧
    ∃ card, (synthesize_and_validate c9State).model_card = some card ∧
      aGet card ("computational_requirements") = some (.jstr ("None specified")) :=
  c9_compute_list_always_invalid c9State [.jstr ("HPC")] rfl

/-- Issues recorded by the coercion phase survive finalization: the only key the
final validation can add is pydantic_validation, which updates no existing key. -/
theorem synthCore_issues_mem (extracted : JDict) (errors : List String)
    (cD : JDict) (cI : Issues) (hne : extracted.isEmpty = false)
    (hsplit : coercePhase extracted = (cD, cI)) (kv : String × String)
    (hkv : kv ∈ cI) (hk : kv.1 ≠ "pydantic_validation") :
    kv ∈ (synthCore extracted errors).validation_issues := by
  cases hpv : pydanticValidate (fillDefaults cD) with
  | ok dump =>
    rw [synthCore_ok extracted errors cD cI dump hne hsplit hpv]
    exact hkv
  | error e =>
    rw [synthCore_error extracted errors cD cI e hne hsplit hpv]
    exact mem_aSet_of_ne hkv _ hk _

/-- C7: before the strict final validation the finalizer fills every field whose
value is still None with a shape-appropriate empty default (empty list for
list-shaped annotations, empty string otherwise), leaves no field None, and the
filling removes no issue that the coercion phase recorded. -/
theorem c7_fill_defaults_and_issue_preservation :
    (∀ (d : JDict) (n : String) (ann : FieldAnn), (n, ann) ∈ modelFields →
      (optNone (aGet d n) = true → aGet (fillDefaults d) n = some (emptyDefault ann)) ∧
      optNone (aGet (fillDefaults d) n) = false) ∧
    (∀ (s : GraphState) (kv : String × String), kv ∈ (coercePhase s.extracted_info).2 →
      kv ∈ (synthesize_and_validate s).validation_issues) := by
  constructor
  · intro d n ann hmem
    constructor
    · intro hnone
      rw [fillDefaults_get d n ann hmem, if_pos hnone]
    · cases hb : optNone (aGet d n) with
      | true =>
        rw [fillDefaults_get d n ann hmem, if_pos hb]
        exact optNone_emptyDefault ann
      | false =>
        rw [fillDefaults_get d n ann hmem,
          if_neg (by rw [hb]; exact Bool.false_ne_true)]
        exact hb
  · intro s kv hkv
    by_cases hie : s.extracted_info.isEmpty = true
    · have hnil : s.extracted_info = [] := List.isEmpty_iff.mp hie
      rw [hnil] at hkv
      have hccp : (coercePhase ([] : JDict)).2 = [] := rfl
      rw [hccp] at hkv
      cases hkv
    · have hie' : s.extracted_info.isEmpty = false := by
        cases hb : s.extracted_info.isEmpty
        · rfl
        · exact absurd hb hie
      have hkey := coercePhase_keys s.extracted_info kv hkv
      show kv ∈ (synthCore s.extracted_info s.error_messages).validation_issues
      refine synthCore_issues_mem s.extracted_info s.error_messages _ _ hie'
        Prod.mk.eta.symm kv hkv ?_
      rcases hkey with h | h | h <;> (rw [h]; decide)

/-- C7 witness: a null capability_name is filled with the empty string, a raw
list-valued sponsoring_projects is left alone, and the type_error_category
issue recorded by the coercion phase on c7State survives finalization. -/
theorem c7_witness :
    aGet (fillDefaults [(("capability_name"), JValue.jnull)]) ("capability_name") =
      some (.jstr ("")) ∧
    optNone (aGet (fillDefaults [(("capability_name"), JValue.jnull)]) ("category")) = false ∧
    ("type_error_category", "Field \x27category\x27 should be a list, got <class \x27str\x27>.") ∈
      (synthesize_and_validate c7State).validation_issues := by
  refine ⟨?_, ?_, ?_⟩
  · exact (c7_fill_defaults_and_issue_preservation.1 [(("capability_name"), JValue.jnull)]
      ("capability_name") (.annStr) (by decide)).1 rfl
  · exact (c7_fill_defaults_and_issue_preservation.1 [(("capability_name"), JValue.jnull)]
      ("category") (.annUnionListStr) (by decide)).2
  · exact c7_fill_defaults_and_issue_preservation.2 c7State
      ("type_error_category", "Field \x27category\x27 should be a list, got <class \x27str\x27>.")
      (by decide)

/-- C8: on non-empty extracted values synthesize_and_validate is deterministic,
reading only extracted_info and error_messages from the state; it always returns
a record rather than raising (a failed final validation degrades to a recorded
pydantic_validation issue with a non-None partial record), and it only appends
to the incoming error list. -/
theorem c8_synth_deterministic_and_total (s1 s2 : GraphState)
    (he : s1.extracted_info = s2.extracted_info)
    (herr : s1.error_messages = s2.error_messages)
    (hne : s1.extracted_info ≠ []) :
    synthesize_and_validate s1 = synthesize_and_validate s2 ∧
    (synthesize_and_validate s1).model_card ≠ none ∧
    ∃ extra, (synthesize_and_validate s1).error_messages = s1.error_messages ++ extra := by
  have hie : s1.extracted_info.isEmpty = false := by
    cases hb : s1.extracted_info.isEmpty
    · rfl
    · exact absurd (List.isEmpty_iff.mp hb) hne
  refine ⟨?_, ?_, ?_⟩
  · unfold synthesize_and_validate
    rw [he, herr]
  · show (synthCore s1.extracted_info s1.error_messages).model_card ≠ none
    cases hpv : pydanticValidate (fillDefaults (coercePhase s1.extracted_info).1) with
    | ok dump =>
      rw [synthCore_ok s1.extracted_info s1.error_messages _ _ dump hie Prod.mk.eta.symm hpv]
      simp
    | error e =>
      rw [synthCore_error s1.extracted_info s1.error_messages _ _ e hie Prod.mk.eta.symm hpv]
      simp
  · show ∃ extra, (synthCore s1.extracted_info s1.error_messages).error_messages =
      s1.error_messages ++ extra
    cases hpv : pydanticValidate (fillDefaults (coercePhase s1.extracted_info).1) with
    | ok dump =>
      rw [synthCore_ok s1.extracted_info s1.error_messages _ _ dump hie Prod.mk.eta.symm hpv]
      exact ⟨[], (List.append_nil _).symm⟩
    | error e =>
      rw [synthCore_error s1.extracted_info s1.error_messages _ _ e hie Prod.mk.eta.symm hpv]
      exact ⟨["Final validation failed: " ++ e], rfl⟩

/-- C8 witness: the concrete state with one extracted field and one prior error. -/
theorem c8_witness :
    synthesize_and_validate c8State = synthesize_and_validate c8State ∧
    (synthesize_and_validate c8State).model_card ≠ none ∧
    ∃ extra, (synthesize_and_validate c8State).error_messages =
      c8State.error_messages ++ extra :=
  c8_synth_deterministic_and_total c8State c8State rfl rfl (by exact List.cons_ne_nil _ _)

/-- C1 (amended): a prepopulated field survives the extraction loop only when
no field invocation raises and the model yields nothing for that field (no
retrieved passages, a null value, or a missing key); under those conditions
both prepopulated fields keep their prepopulated values - capability_name the
URL-derived name and key_contributors the git-derived author list (or [] when
the repository could not be opened). A non-null model value overwrites them
(see the counterexample). -/
theorem c1_prepopulated_preserved_when_model_yields_nothing (env : ExtractEnv) (s : GraphState)
    (hnr : noRaises env)
    (hnullCap : nullishFor env ("capability_name"))
    (hnullKC : nullishFor env ("key_contributors"))
    (hurl : ((aGet s.input_urls ("github")).getD "") ≠ "")
    (hemb : env.embeddingsOk = true)
    (hdocs : (s.github_docs ++ s.docs_docs).isEmpty = false)
    (hvs : env.vectorstore = Except.ok ()) :
    aGet (information_extraction env s).1 ("capability_name") =
      some (.jstr (capName ((aGet s.input_urls ("github")).getD ""))) ∧
    aGet (information_extraction env s).1 ("key_contributors") =
      some (.jlist (((env.gitAuthors).getD []).map .jstr)) :=
  information_extraction_prepop env s hnr hnullCap hnullKC hurl hemb hdocs hvs

/-- C1 witness: a run whose model answers null everywhere keeps the URL-derived
capability name mosartwmpy and the git-derived contributor list. -/
theorem c1_witness :
    aGet (information_extraction c1Env c1State).1 ("capability_name") =
      some (.jstr ("mosartwmpy")) ∧
    aGet (information_extraction c1Env c1State).1 ("key_contributors") =
      some (.jlist [.jstr ("Alice Doe")]) := by
  have h := c1_prepopulated_preserved_when_model_yields_nothing c1Env c1State
    (by intro f m hc; simp [c1Env] at hc)
    (Or.inr (fun v hv => by simp only [c1Env] at hv; cases hv; rfl))
    (Or.inr (fun v hv => by simp only [c1Env] at hv; cases hv; rfl))
    (by decide) rfl rfl rfl
  exact ⟨h.1.trans rfl, h.2.trans rfl⟩

/-- C1 counterexample: a non-null model value for capability_name overwrites the
prepopulated URL-derived value mosartwmpy, so prepopulated fields are NOT always
preserved as the claim states. -/
theorem c1_counterexample :
    aGet (information_extraction c1OverEnv c1State).1 ("capability_name") =
      some (.jstr ("renamed-tool")) ∧
    capName ("https://github.com/IMMM-SFA/mosartwmpy") = "mosartwmpy" ∧
    ("renamed-tool" : String) ≠ "mosartwmpy" :=
  ⟨rfl, rfl, by decide⟩

/-- C3 (code bug): when the model invocation for the second field raises, the
except handler reads the never-bound local err_msg, so a NameError escapes both
per-field handlers; the outermost handler then discards every extracted value
(including the first field and the prepopulated ones) and appends one critical
NameError message instead of a per-field error plus an explicit null. -/
theorem c3_invocation_error_aborts_extraction :
    information_extraction c3Env c3State = ([], [criticalErrMsg]) ∧
    criticalErrMsg =
      "Critical information_extraction error: name \x27err_msg\x27 is not defined" :=
  ⟨rfl, rfl⟩

/-- C4 (code bug): a capacity/quota-class invocation error never reaches the
fallback model: the quota check itself evaluates the unbound err_msg and the
resulting NameError aborts the node, for every possible fallback oracle, with
an empty extracted_info and a single critical error. -/
theorem c4_quota_error_never_retries_fallback (fb : String → ModelOutcome) :
    information_extraction { c4Env with invokeFallback := fb } c4State =
      ([], [criticalErrMsg]) := rfl

/-- C10: fetch_publications never overwrites an already-present (truthy) doi
value; the publication-search DOI is written only when the existing entry is
missing, None or empty. -/
theorem c10_existing_doi_never_overwritten (env : PubEnv) (s : GraphState) (v : JValue)
    (hd : aGet s.extracted_info ("doi") = some v) (ht : pyTruthy v = true) :
    aGet (fetch_publications env s).1 ("doi") = some v := by
  unfold fetch_publications
  dsimp only
  split
  · exact hd
  · split
    · exact hd
    · split
      · exact hd
      · cases env.llmInvoke with
        | error e => exact hd
        | ok keyPub =>
          dsimp only
          split
          · have hd1 : aGet (aSet s.extracted_info ("key_publications")
                (.jstr (pyStrip keyPub))) ("doi") = some v := by
              rw [aGet_aSet_ne _ _ _ _ (by decide)]
              exact hd
            cases env.doiSearch keyPub with
            | some foundDoi => simp [hd1, ht]
            | none => exact hd1
          · exact hd

/-- C10 witness: a found DOI does not replace the concrete pre-existing
zenodo DOI. -/
theorem c10_witness :
    aGet (fetch_publications c10Env c10State).1 ("doi") =
      some (.jstr ("10.5281/zenodo.1234567")) :=
  c10_existing_doi_never_overwritten c10Env c10State (.jstr ("10.5281/zenodo.1234567")) rfl rfl
